import Mathlib

/-!
# Verification of the draw-logic (nonogram) solver

Shallow embedding of `src/draw_logic_solver.py`.  The program translates
row/column hints of a nonogram into z3 constraints over an integer-indexed
boolean array `f` (the field) and per-line integer placement variables, asks
z3 for a model, and renders the model as `x`/`_` characters.

The z3 layer is embedded as follows: an assignment is a pair of
`σ : String → Int` (values of the named integer constants created by
`z3.Int(name)`; two occurrences of the same name denote the same variable)
and `f : Int → Bool` (the array `z3.Array('f', IntSort, BoolSort)`).
Each `self._solver.add(...)` call becomes one conjunct of a `Prop`;
`z3.ForAll` becomes a universal quantifier over `Int`.
-/

set_option maxRecDepth 4000

namespace DrawLogicSolver

/-! ## Generic boolean-line vocabulary -/

/-- Run lengths of the maximal blocks of `true` in a boolean line; `acc` is
the length of the run currently being scanned. -/
def runLengthsAux : List Bool → Nat → List Nat
  | [], 0 => []
  | [], acc + 1 => [acc + 1]
  | true :: rest, acc => runLengthsAux rest (acc + 1)
  | false :: rest, 0 => runLengthsAux rest 0
  | false :: rest, acc + 1 => (acc + 1) :: runLengthsAux rest 0

/-- The ordered list of lengths of the maximal runs of `true` in a line. -/
def runLengths (l : List Bool) : List Nat := runLengthsAux l 0

/-! ## Embedding of `DrawLogic._add_column`

`_add_column(numbers, skip, base, size, prefix)` reads and writes only the
cells `f[base + skip * pos]`; the placement variable for hint `i` is the z3
integer constant named `prefix + str(i)`. -/

/-- The cells of the line described by `skip`/`base`, as the program renders
them: position `i` of the line is the field cell `base + skip * i`. -/
def lineRender (f : Int → Bool) (skip base : Int) (size : Nat) : List Bool :=
  (List.range size).map (fun (i : Nat) => f (base + skip * (i : Int)))

/-- The constraints emitted by the `numbers != []` branch of `_add_column`,
with `V i` the value of the placement variable of hint `i`.  The seven
conjuncts are, in source order: `v[0] >= 0`; `v[i] + numbers[i] < v[i+1]`;
`v[-1] + numbers[-1] <= size`; the filled-cell assertions; and the three
groups of `ForAll` gap assertions. -/
def mainSat (numbers : List Int) (skip base : Int) (size : Nat)
    (V : Nat → Int) (f : Int → Bool) : Prop :=
  0 ≤ V 0 ∧
  (∀ i : Nat, i < numbers.length - 1 →
    V i + numbers.getD i 0 < V (i + 1)) ∧
  V (numbers.length - 1) + numbers.getD (numbers.length - 1) 0 ≤ (size : Int) ∧
  (∀ i : Nat, i < numbers.length → ∀ k : Nat, k < (numbers.getD i 0).toNat →
    f (base + (V i + (k : Int)) * skip) = true) ∧
  (∀ fa : Int, fa < 0 ∨ V 0 ≤ fa ∨ f (base + skip * fa) = false) ∧
  (∀ i : Nat, i < numbers.length - 1 → ∀ fa : Int,
    fa < V i + numbers.getD i 0 ∨ V (i + 1) ≤ fa ∨ f (base + skip * fa) = false) ∧
  (∀ fa : Int, fa < V (numbers.length - 1) + numbers.getD (numbers.length - 1) 0 ∨
    (size : Int) ≤ fa ∨ f (base + skip * fa) = false)

/-- The constraints emitted by one `_add_column` call: the empty-hint branch
asserts `Not(f[base + skip * i])` for every `i < size`, the other branch is
`mainSat`. -/
def addColumnSatV (numbers : List Int) (skip base : Int) (size : Nat)
    (V : Nat → Int) (f : Int → Bool) : Prop :=
  if numbers = [] then
    ∀ i : Nat, i < size → f (base + skip * (i : Int)) = false
  else
    mainSat numbers skip base size V f

/-- Value of the placement variable `z3.Int(pfx + str(i))` under the
assignment `σ` of the named integer constants. -/
def varFun (σ : String → Int) (pfx : String) : Nat → Int :=
  fun i => σ (pfx ++ toString i)

/-- The `_add_column` constraints with placement variables looked up by name. -/
def addColumnSat (numbers : List Int) (skip base : Int) (size : Nat)
    (pfx : String) (σ : String → Int) (f : Int → Bool) : Prop :=
  addColumnSatV numbers skip base size (varFun σ pfx) f

/-! ## Embedding of `DrawLogic._solve` -/

/-- The full constraint store built by `_solve`: one `_add_column` call per
horizontal hint line (`skip = 1`, `base = j * width`, `size = width`,
name prefix `'h%d' % j`) and one per vertical hint line (`skip = width`,
`base = i`, `size = height`, name prefix `'v%d' % i`), where
`width = len(vertical_hints)` and `height = len(horizontal_hints)`. -/
def solveSat (hor ver : List (List Int)) (σ : String → Int) (f : Int → Bool) : Prop :=
  (∀ j : Nat, j < hor.length →
    addColumnSat (hor.getD j []) 1 ((j : Int) * ver.length) ver.length
      ("h" ++ toString j) σ f) ∧
  (∀ i : Nat, i < ver.length →
    addColumnSat (ver.getD i []) (ver.length : Int) (i : Int) hor.length
      ("v" ++ toString i) σ f)

/-- The grid `f0` extracted from a model by `_solve`:
`f0[i][j] = m.eval(field[j * width + i])`. -/
def answerGrid (f : Int → Bool) (width height : Nat) : List (List Bool) :=
  (List.range width).map (fun (i : Nat) =>
    (List.range height).map (fun (j : Nat) => f ((j : Int) * width + i)))

/-- Modelled from the spec: the external z3 solver (not part of `src/`) is
assumed to terminate with a definitive verdict — a model of the asserted
constraints when they are satisfiable (`res = some (σ, f)`), and `none`
exactly when they are unsatisfiable. -/
def SolverOK (hor ver : List (List Int))
    (res : Option ((String → Int) × (Int → Bool))) : Prop :=
  (∀ σ f, res = some (σ, f) → solveSat hor ver σ f) ∧
  (res = none → ∀ σ f, ¬ solveSat hor ver σ f)

/-- The value returned by `_solve` given the solver's verdict `res`:
`None` on unsat, otherwise the extracted grid. -/
def solveResult (hor ver : List (List Int))
    (res : Option ((String → Int) × (Int → Bool))) : Option (List (List Bool)) :=
  res.map (fun p => answerGrid p.2 ver.length hor.length)

/-! ## Embedding of `DrawLogic.solve` (caching) -/

/-- The mutable state of a `DrawLogic` instance: `_solved` and `_answer`. -/
structure DrawLogicState where
  solved : Bool
  answer : Option (List (List Bool))
deriving DecidableEq

/-- The state set up by `__init__`. -/
def initState : DrawLogicState := { solved := false, answer := none }

/-- One call of `solve()`: returns the new state, the returned answer, and
how many times `_solve` was invoked during the call (`compute` is the value
`_solve()` would produce). -/
def solveCall (compute : Option (List (List Bool))) (st : DrawLogicState) :
    DrawLogicState × Option (List (List Bool)) × Nat :=
  if st.solved then (st, st.answer, 0)
  else ({ solved := true, answer := compute }, compute, 1)

/-- A sequence of `n` calls of `solve()` starting from a fresh instance:
final state, result of the last call, and total number of `_solve`
invocations. -/
def solveCalls (compute : Option (List (List Bool))) : Nat →
    DrawLogicState × Option (List (List Bool)) × Nat
  | 0 => (initState, none, 0)
  | n + 1 =>
    let s := solveCalls compute n
    let c := solveCall compute s.1
    (c.1, c.2.1, s.2.2 + c.2.2)

/-! ## Embedding of `DrawLogic.print_answer` -/

/-- The lines written by `print_answer` for a grid `q`: line `j` has one
character per column `i` of `q`, `'x'` for a filled cell `q[i][j]` and `'_'`
otherwise.  The line count is `len(q[0])`. -/
def answerLines (q : List (List Bool)) : List String :=
  (List.range q.headI.length).map (fun j =>
    String.mk ((List.range q.length).map (fun i =>
      if (q.getD i []).getD j false then 'x' else '_')))

/-- The text written for a non-empty grid: each line followed by `'\n'`. -/
def renderAnswer (q : List (List Bool)) : String :=
  String.join ((answerLines q).map (fun s => s ++ "\n"))

/-- Embedding of `print_answer`: writes `No solutions!` when `solve()` returned `None`;
otherwise it evaluates `len(q[0])`, which raises `IndexError` on an empty
grid (`none` models the uncaught exception), and renders the grid. -/
def printAnswer (q : Option (List (List Bool))) : Option String :=
  match q with
  | none => some "No solutions!\n"
  | some [] => none
  | some (c :: cs) => some (renderAnswer (c :: cs))

/-! ## Run-length combinatorics -/

lemma runLengthsAux_replicate_false_zero (t : Nat) :
    runLengthsAux (List.replicate t false) 0 = [] := by
  induction t with
  | zero => rfl
  | succ t ih => simpa [List.replicate_succ, runLengthsAux] using ih

lemma runLengthsAux_replicate_false_succ (t k : Nat) :
    runLengthsAux (List.replicate t false) (k + 1) = [k + 1] := by
  cases t with
  | zero => rfl
  | succ t =>
    simp [List.replicate_succ, runLengthsAux, runLengthsAux_replicate_false_zero]

lemma runLengthsAux_replicate_false_append (g : Nat) (l : List Bool) :
    runLengthsAux (List.replicate g false ++ l) 0 = runLengthsAux l 0 := by
  induction g with
  | zero => rfl
  | succ g ih => simpa [List.replicate_succ, runLengthsAux] using ih

lemma runLengthsAux_replicate_true_append (c : Nat) (l : List Bool) :
    ∀ k, runLengthsAux (List.replicate c true ++ l) k = runLengthsAux l (k + c) := by
  induction c with
  | zero => intro k; simp
  | succ c ih =>
    intro k
    have h1 : List.replicate (c + 1) true ++ l = true :: (List.replicate c true ++ l) := by
      simp [List.replicate_succ]
    rw [h1]
    show runLengthsAux (List.replicate c true ++ l) (k + 1) = runLengthsAux l (k + (c + 1))
    rw [ih (k + 1)]
    congr 1
    omega

lemma runLengthsAux_sum (l : List Bool) : ∀ k, (runLengthsAux l k).sum = l.count true + k := by
  induction l with
  | nil => intro k; cases k <;> simp [runLengthsAux]
  | cons b t ih =>
    intro k
    cases b with
    | true =>
      rw [show runLengthsAux (true :: t) k = runLengthsAux t (k + 1) from rfl, ih]
      simp [List.count_cons]
      omega
    | false =>
      cases k with
      | zero =>
        rw [show runLengthsAux (false :: t) 0 = runLengthsAux t 0 from rfl, ih]
        simp [List.count_cons]
      | succ k =>
        rw [show runLengthsAux (false :: t) (k + 1) = (k + 1) :: runLengthsAux t 0 from rfl]
        simp [ih, List.count_cons]
        omega

/-- The sum of the run lengths is the number of filled cells. -/
lemma runLengths_sum (l : List Bool) : (runLengths l).sum = l.count true := by
  simpa using runLengthsAux_sum l 0

/-- The boolean line consisting of `m` runs, run `r` occupying
`[O r, O r + C r)`, rendered from position `lo` up to `size`. -/
def blockList : (Nat → Nat) → (Nat → Nat) → Nat → Nat → Nat → List Bool
  | _, _, 0, lo, size => List.replicate (size - lo) false
  | O, C, m + 1, lo, size =>
    List.replicate (O 0 - lo) false ++ List.replicate (C 0) true ++
      blockList (fun i => O (i + 1)) (fun i => C (i + 1)) m (O 0 + C 0) size

/-- Well-spaced placement: positive run lengths, a mandatory gap between
consecutive runs, every run ending inside the line. -/
def spacedI (O C : Nat → Nat) (m size : Nat) : Prop :=
  (∀ i : Nat, i < m → 1 ≤ C i) ∧
  (∀ i : Nat, i + 1 < m → O i + C i < O (i + 1)) ∧
  (∀ i : Nat, i < m → O i + C i ≤ size)

lemma spacedI_shift {O C : Nat → Nat} {m size : Nat} (h : spacedI O C (m + 1) size) :
    spacedI (fun i => O (i + 1)) (fun i => C (i + 1)) m size :=
  ⟨fun i hi => h.1 (i + 1) (by omega),
   fun i hi => h.2.1 (i + 1) (by omega),
   fun i hi => h.2.2 (i + 1) (by omega)⟩

lemma spacedI_start_le {O C : Nat → Nat} {m size : Nat} (h : spacedI O C m size) :
    ∀ i, i < m → O 0 ≤ O i := by
  intro i
  induction i with
  | zero => intro _; exact le_rfl
  | succ i ih =>
    intro hi
    have h1 : O i + C i < O (i + 1) := h.2.1 i hi
    have h2 := ih (by omega)
    omega

lemma runLengthsAux_blockList_succ (O C : Nat → Nat) (m lo size k : Nat)
    (h : 0 < m → lo < O 0) :
    runLengthsAux (blockList O C m lo size) (k + 1) =
      (k + 1) :: runLengthsAux (blockList O C m lo size) 0 := by
  cases m with
  | zero =>
    simp [blockList, runLengthsAux_replicate_false_succ, runLengthsAux_replicate_false_zero]
  | succ m =>
    have hlt : lo < O 0 := h (by omega)
    obtain ⟨g, hg⟩ : ∃ g, O 0 - lo = g + 1 := ⟨O 0 - lo - 1, by omega⟩
    simp only [blockList, hg, List.replicate_succ, List.cons_append, List.append_assoc]
    rw [show runLengthsAux (false :: (List.replicate g false ++
          (List.replicate (C 0) true ++ blockList (fun i => O (i + 1)) (fun i => C (i + 1)) m
            (O 0 + C 0) size))) (k + 1) = (k + 1) :: runLengthsAux (List.replicate g false ++
          (List.replicate (C 0) true ++ blockList (fun i => O (i + 1)) (fun i => C (i + 1)) m
            (O 0 + C 0) size)) 0 from rfl]
    rfl

lemma runLengths_blockList (m : Nat) : ∀ (O C : Nat → Nat) (size : Nat),
    spacedI O C m size → ∀ lo : Nat,
    runLengthsAux (blockList O C m lo size) 0 = (List.range m).map C := by
  induction m with
  | zero =>
    intro O C size _ lo
    simp [blockList, runLengthsAux_replicate_false_zero]
  | succ m ih =>
    intro O C size hsp lo
    have hC0 : 1 ≤ C 0 := hsp.1 0 (by omega)
    obtain ⟨c, hc⟩ : ∃ c, C 0 = c + 1 := ⟨C 0 - 1, by omega⟩
    simp only [blockList, List.append_assoc]
    rw [runLengthsAux_replicate_false_append, runLengthsAux_replicate_true_append]
    rw [show 0 + C 0 = c + 1 from by omega]
    rw [runLengthsAux_blockList_succ _ _ m (O 0 + C 0) size c
      (fun hm => by have := hsp.2.1 0 (by omega); omega)]
    rw [ih _ _ size (spacedI_shift hsp) (O 0 + C 0)]
    rw [List.range_succ_eq_map]
    simp only [List.map_cons, List.map_map]
    rw [← hc]
    congr 1

/-- Membership test for positions: is `p` inside one of the `m` runs? -/
def coverB (O C : Nat → Nat) (m p : Nat) : Bool :=
  (List.range m).any (fun i => decide (O i ≤ p) && decide (p < O i + C i))

lemma coverB_iff {O C : Nat → Nat} {m p : Nat} :
    coverB O C m p = true ↔ ∃ i, i < m ∧ O i ≤ p ∧ p < O i + C i := by
  simp [coverB, List.any_eq_true, List.mem_range]

lemma coverB_eq_false_of_lt {O C : Nat → Nat} {m size p : Nat}
    (hsp : spacedI O C m size) (hp : p < O 0) : coverB O C m p = false := by
  by_contra h
  rw [Bool.not_eq_false] at h
  obtain ⟨i, hi, h1, h2⟩ := coverB_iff.mp h
  have := spacedI_start_le hsp i hi
  omega

lemma coverB_succ_high {O C : Nat → Nat} {m p : Nat} (h : O 0 + C 0 ≤ p) :
    coverB O C (m + 1) p = coverB (fun i => O (i + 1)) (fun i => C (i + 1)) m p := by
  simp only [coverB, List.range_succ_eq_map, List.any_cons, List.any_map]
  have h0 : (decide (O 0 ≤ p) && decide (p < O 0 + C 0)) = false := by
    simp only [Bool.and_eq_false_iff, decide_eq_false_iff_not]
    omega
  simp only [h0, Bool.false_or]
  rfl

lemma map_render_eq_blockList (g : Nat → Bool) (m : Nat) :
    ∀ (O C : Nat → Nat) (lo size : Nat), spacedI O C m size → lo ≤ size →
    (0 < m → lo ≤ O 0) →
    (∀ p : Nat, lo ≤ p → p < size → g p = coverB O C m p) →
    (List.range (size - lo)).map (fun q => g (lo + q)) = blockList O C m lo size := by
  induction m with
  | zero =>
    intro O C lo size _ hlos _ hpt
    simp only [blockList]
    apply List.eq_replicate_iff.mpr
    constructor
    · simp
    · intro b hb
      simp only [List.mem_map, List.mem_range] at hb
      obtain ⟨q, hq, rfl⟩ := hb
      rw [hpt (lo + q) (by omega) (by omega)]
      simp [coverB]
  | succ m ih =>
    intro O C lo size hsp hlos hlo hpt
    have hO0 : lo ≤ O 0 := hlo (by omega)
    have hC0 : 1 ≤ C 0 := hsp.1 0 (by omega)
    have hend : O 0 + C 0 ≤ size := hsp.2.2 0 (by omega)
    have hsplit : size - lo = (O 0 - lo) + (C 0 + (size - (O 0 + C 0))) := by omega
    rw [hsplit, List.range_add, List.map_append, List.map_map,
      List.range_add, List.map_append, List.map_map]
    simp only [blockList, List.append_assoc]
    congr 1
    · apply List.eq_replicate_iff.mpr
      refine ⟨by simp, ?_⟩
      intro b hb
      simp only [List.mem_map, List.mem_range] at hb
      obtain ⟨q, hq, rfl⟩ := hb
      rw [hpt (lo + q) (by omega) (by omega)]
      exact coverB_eq_false_of_lt hsp (by omega)
    congr 1
    · apply List.eq_replicate_iff.mpr
      refine ⟨by simp, ?_⟩
      intro b hb
      simp only [List.mem_map, List.mem_range, Function.comp] at hb
      obtain ⟨q, hq, rfl⟩ := hb
      rw [hpt (lo + (O 0 - lo + q)) (by omega) (by omega)]
      exact coverB_iff.mpr ⟨0, by omega, by omega, by omega⟩
    · have hstep := ih (fun i => O (i + 1)) (fun i => C (i + 1)) (O 0 + C 0) size
        (spacedI_shift hsp) hend
        (fun hm => show O 0 + C 0 ≤ O (0 + 1) from by
          have := hsp.2.1 0 (by omega); omega)
        (fun p hp1 hp2 => by rw [hpt p (by omega) hp2, coverB_succ_high hp1])
      rw [← hstep]
      apply List.map_congr_left
      intro q hq
      simp only [Function.comp_apply]
      congr 1
      omega

/-! ## Soundness of the per-line encoding -/

lemma map_range_getD_toNat : ∀ l : List Int,
    (List.range l.length).map (fun i => (l.getD i 0).toNat) = l.map Int.toNat := by
  intro l
  induction l with
  | nil => rfl
  | cons x t ih =>
    rw [List.length_cons, List.range_succ_eq_map, List.map_cons, List.map_map,
      List.map_cons]
    rw [show ((fun i => ((x :: t).getD i 0).toNat) ∘ Nat.succ) =
      (fun i => (t.getD i 0).toNat) from rfl]
    rw [ih]
    rfl

lemma numbers_getD_pos {numbers : List Int} (hpos : ∀ x ∈ numbers, 0 < x)
    {i : Nat} (hi : i < numbers.length) : 0 < numbers.getD i 0 := by
  rw [List.getD_eq_getElem _ _ hi]
  exact hpos _ (List.getElem_mem hi)

lemma mainSat_V_nonneg {numbers : List Int} {skip base : Int} {size : Nat}
    {V : Nat → Int} {f : Int → Bool}
    (hsat : mainSat numbers skip base size V f)
    (hpos : ∀ x ∈ numbers, 0 < x) : ∀ i, i < numbers.length → 0 ≤ V i := by
  intro i
  induction i with
  | zero => intro _; exact hsat.1
  | succ i ih =>
    intro hi
    have h1 := hsat.2.1 i (by omega)
    have h2 := numbers_getD_pos hpos (i := i) (by omega)
    have h3 := ih (by omega)
    omega

lemma spaced_ends_le {O C : Nat → Nat} {n size : Nat} (hn : 1 ≤ n)
    (hgap : ∀ i, i + 1 < n → O i + C i < O (i + 1))
    (_hC : ∀ i, i < n → 1 ≤ C i)
    (hlast : O (n - 1) + C (n - 1) ≤ size) :
    ∀ i, i < n → O i + C i ≤ size := by
  have key : ∀ d i, i + d = n - 1 → O i + C i ≤ size := by
    intro d
    induction d with
    | zero =>
      intro i hi
      have h : i = n - 1 := by omega
      rw [h]
      exact hlast
    | succ d ih =>
      intro i hi
      have h1 : i + 1 < n := by omega
      have h2 := hgap i h1
      have h3 := ih (i + 1) (by omega)
      omega
  intro i hi
  exact key (n - 1 - i) i (by omega)

lemma mainSat_gap_forward {numbers : List Int} {skip base : Int} {size : Nat}
    {V : Nat → Int} {f : Int → Bool} (hne : numbers ≠ [])
    (hsat : mainSat numbers skip base size V f) :
    ∀ p : Int, 0 ≤ p → p < (size : Int) →
    (∀ i, i < numbers.length → ¬(V i ≤ p ∧ p < V i + numbers.getD i 0)) →
    f (base + skip * p) = false := by
  obtain ⟨_, c2, _, _, c5, c6, c7⟩ := hsat
  have hn : 1 ≤ numbers.length := List.length_pos.mpr hne
  have H : ∀ j, j < numbers.length → ∀ p : Int, 0 ≤ p →
      p < V j + numbers.getD j 0 →
      (∀ i, i < numbers.length → ¬(V i ≤ p ∧ p < V i + numbers.getD i 0)) →
      f (base + skip * p) = false := by
    intro j
    induction j with
    | zero =>
      intro hj p hp0 hpe hnc
      rcases c5 p with h | h | h
      · omega
      · exact absurd ⟨h, hpe⟩ (hnc 0 hj)
      · exact h
    | succ j ih =>
      intro hj p hp0 hpe hnc
      by_cases hlt : p < V j + numbers.getD j 0
      · exact ih (by omega) p hp0 hlt hnc
      · by_cases hge : V (j + 1) ≤ p
        · exact absurd ⟨hge, hpe⟩ (hnc (j + 1) hj)
        · rcases c6 j (by omega) p with h | h | h
          · omega
          · omega
          · exact h
  intro p hp0 hps hnc
  by_cases hlt : p < V (numbers.length - 1) + numbers.getD (numbers.length - 1) 0
  · exact H (numbers.length - 1) (by omega) p hp0 hlt hnc
  · rcases c7 p with h | h | h
    · omega
    · omega
    · exact h

/-- Soundness of the non-empty-hints branch of `_add_column` for one line:
any satisfying assignment renders the line as exactly the hinted runs. -/
lemma line_runs {numbers : List Int} {skip base : Int} {size : Nat}
    {V : Nat → Int} {f : Int → Bool} (hne : numbers ≠ [])
    (hpos : ∀ x ∈ numbers, 0 < x)
    (hsat : mainSat numbers skip base size V f) :
    runLengths (lineRender f skip base size) = numbers.map Int.toNat := by
  have hn : 1 ≤ numbers.length := List.length_pos.mpr hne
  have hVnn := mainSat_V_nonneg hsat hpos
  have hsp : spacedI (fun i => (V i).toNat) (fun i => (numbers.getD i 0).toNat)
      numbers.length size := by
    refine ⟨?_, ?_, ?_⟩
    · intro i hi
      show 1 ≤ (numbers.getD i 0).toNat
      have := numbers_getD_pos hpos hi
      omega
    · intro i hi
      show (V i).toNat + (numbers.getD i 0).toNat < (V (i + 1)).toNat
      have h1 := hsat.2.1 i (by omega)
      have h2 := hVnn i (by omega)
      have h3 := hVnn (i + 1) (by omega)
      have h4 := numbers_getD_pos hpos (i := i) (by omega)
      omega
    · apply spaced_ends_le hn
      · intro i hi
        show (V i).toNat + (numbers.getD i 0).toNat < (V (i + 1)).toNat
        have h1 := hsat.2.1 i (by omega)
        have h2 := hVnn i (by omega)
        have h3 := hVnn (i + 1) (by omega)
        have h4 := numbers_getD_pos hpos (i := i) (by omega)
        omega
      · intro i hi
        show 1 ≤ (numbers.getD i 0).toNat
        have := numbers_getD_pos hpos hi
        omega
      · show (V (numbers.length - 1)).toNat +
          (numbers.getD (numbers.length - 1) 0).toNat ≤ size
        have h1 := hsat.2.2.1
        have h2 := hVnn (numbers.length - 1) (by omega)
        have h3 := numbers_getD_pos hpos (i := numbers.length - 1) (by omega)
        omega
  have hpt : ∀ p : Nat, p < size → f (base + skip * (p : Int)) =
      coverB (fun i => (V i).toNat) (fun i => (numbers.getD i 0).toNat)
        numbers.length p := by
    intro p hp
    cases hcv : coverB (fun i => (V i).toNat) (fun i => (numbers.getD i 0).toNat)
        numbers.length p with
    | true =>
      obtain ⟨i, hi, h1, h2⟩ := coverB_iff.mp hcv
      change (V i).toNat ≤ p at h1
      change p < (V i).toNat + (numbers.getD i 0).toNat at h2
      have hv := hVnn i hi
      have hfill := hsat.2.2.2.1 i hi (p - (V i).toNat) (by omega)
      have harg : V i + ((p - (V i).toNat : Nat) : Int) = (p : Int) := by omega
      rw [harg] at hfill
      rw [show base + (p : Int) * skip = base + skip * (p : Int) from by ring] at hfill
      exact hfill
    | false =>
      apply mainSat_gap_forward hne ⟨hsat.1, hsat.2.1, hsat.2.2.1, hsat.2.2.2.1,
        hsat.2.2.2.2.1, hsat.2.2.2.2.2.1, hsat.2.2.2.2.2.2⟩ p (by omega) (by omega)
      intro i hi hcontra
      obtain ⟨hc1, hc2⟩ := hcontra
      have hv := hVnn i hi
      have : coverB (fun i => (V i).toNat) (fun i => (numbers.getD i 0).toNat)
          numbers.length p = true :=
        coverB_iff.mpr ⟨i, hi, show (V i).toNat ≤ p from by omega,
          show p < (V i).toNat + (numbers.getD i 0).toNat from by omega⟩
      rw [hcv] at this
      exact Bool.noConfusion this
  have hrender : lineRender f skip base size =
      blockList (fun i => (V i).toNat) (fun i => (numbers.getD i 0).toNat)
        numbers.length 0 size := by
    have hmap := map_render_eq_blockList (fun p => f (base + skip * (p : Int)))
      numbers.length (fun i => (V i).toNat) (fun i => (numbers.getD i 0).toNat)
      0 size hsp (by omega) (fun _ => by omega)
      (fun p hp0 hps => hpt p hps)
    rw [← hmap]
    unfold lineRender
    rw [Nat.sub_zero]
    apply List.map_congr_left
    intro q _
    simp
  rw [runLengths, hrender,
    runLengths_blockList numbers.length _ _ size hsp 0]
  exact map_range_getD_toNat numbers

/-! ## Executable checkers

The `ForAll` gap constraints quantify over all of `Int` but only bind cells
inside a bounded window, so each one is equivalent to a bounded check.  These
checkers let concrete instances be settled by evaluation. -/

/-- Bounded check of one gap constraint: every cell of the line window
`[lo, hi)` is empty. -/
def gapOK (f : Int → Bool) (skip base lo hi : Int) : Bool :=
  (List.range (hi - lo).toNat).all (fun (k : Nat) => !(f (base + skip * (lo + k))))

lemma gapOK_iff {f : Int → Bool} {skip base lo hi : Int} :
    gapOK f skip base lo hi = true ↔
      ∀ fa : Int, fa < lo ∨ hi ≤ fa ∨ f (base + skip * fa) = false := by
  constructor
  · intro h fa
    by_cases h1 : fa < lo
    · exact Or.inl h1
    · by_cases h2 : hi ≤ fa
      · exact Or.inr (Or.inl h2)
      · refine Or.inr (Or.inr ?_)
        unfold gapOK at h
        rw [List.all_eq_true] at h
        have hk : (fa - lo).toNat < (hi - lo).toNat := by omega
        have := h _ (List.mem_range.mpr hk)
        rw [show lo + ((fa - lo).toNat : Int) = fa from by omega] at this
        simpa using this
  · intro h
    unfold gapOK
    rw [List.all_eq_true]
    intro k hk
    rw [List.mem_range] at hk
    rcases h (lo + (k : Int)) with h1 | h1 | h1
    · omega
    · omega
    · simpa using h1

/-- Executable version of `mainSat`. -/
def mainSatB (numbers : List Int) (skip base : Int) (size : Nat)
    (V : Nat → Int) (f : Int → Bool) : Bool :=
  decide (0 ≤ V 0) &&
  (List.range (numbers.length - 1)).all (fun i =>
    decide (V i + numbers.getD i 0 < V (i + 1))) &&
  decide (V (numbers.length - 1) + numbers.getD (numbers.length - 1) 0 ≤ (size : Int)) &&
  (List.range numbers.length).all (fun i =>
    (List.range (numbers.getD i 0).toNat).all (fun (k : Nat) =>
      f (base + (V i + (k : Int)) * skip))) &&
  gapOK f skip base 0 (V 0) &&
  (List.range (numbers.length - 1)).all (fun i =>
    gapOK f skip base (V i + numbers.getD i 0) (V (i + 1))) &&
  gapOK f skip base (V (numbers.length - 1) + numbers.getD (numbers.length - 1) 0)
    (size : Int)

lemma mainSatB_iff {numbers : List Int} {skip base : Int} {size : Nat}
    {V : Nat → Int} {f : Int → Bool} :
    mainSatB numbers skip base size V f = true ↔
      mainSat numbers skip base size V f := by
  unfold mainSatB mainSat
  simp only [Bool.and_eq_true, List.all_eq_true, List.mem_range,
    decide_eq_true_eq, gapOK_iff, and_assoc]

/-- Executable version of `addColumnSatV`. -/
def addColumnSatB (numbers : List Int) (skip base : Int) (size : Nat)
    (V : Nat → Int) (f : Int → Bool) : Bool :=
  if numbers = [] then
    (List.range size).all (fun (i : Nat) => !(f (base + skip * (i : Int))))
  else
    mainSatB numbers skip base size V f

lemma addColumnSatB_iff {numbers : List Int} {skip base : Int} {size : Nat}
    {V : Nat → Int} {f : Int → Bool} :
    addColumnSatB numbers skip base size V f = true ↔
      addColumnSatV numbers skip base size V f := by
  unfold addColumnSatB addColumnSatV
  by_cases h : numbers = []
  · simp only [if_pos h, List.all_eq_true, List.mem_range]
    constructor
    · intro hh i hi
      simpa using hh i hi
    · intro hh i hi
      simpa using hh i hi
  · simp only [if_neg h]
    exact mainSatB_iff

/-- Executable version of `solveSat`. -/
def solveSatB (hor ver : List (List Int)) (σ : String → Int) (f : Int → Bool) : Bool :=
  (List.range hor.length).all (fun j =>
    addColumnSatB (hor.getD j []) 1 ((j : Int) * ver.length) ver.length
      (varFun σ ("h" ++ toString j)) f) &&
  (List.range ver.length).all (fun i =>
    addColumnSatB (ver.getD i []) (ver.length : Int) (i : Int) hor.length
      (varFun σ ("v" ++ toString i)) f)

lemma solveSatB_iff {hor ver : List (List Int)} {σ : String → Int} {f : Int → Bool} :
    solveSatB hor ver σ f = true ↔ solveSat hor ver σ f := by
  unfold solveSatB solveSat addColumnSat
  simp only [Bool.and_eq_true, List.all_eq_true, List.mem_range, addColumnSatB_iff]

/-! ## Concrete puzzles -/

/-- Row hints of the module docstring example. -/
def horDoc : List (List Int) := [[3], [1, 1], [3]]

/-- Column hints of the module docstring example. -/
def verDoc : List (List Int) := [[1], [1, 1], [1, 1], [1, 1], [1]]

/-- Row hints as the spec's concrete scenario states them. -/
def horClaim : List (List Int) := [[3], [1, 1], [1]]

/-- Column hints as the spec's concrete scenario states them. -/
def verClaim : List (List Int) := [[1, 1], [1, 1], [1, 1], [], [1]]

/-- The docstring answer grid, in the column-major layout `_solve` returns:
`qTarget[i][j]` is cell `(column i, row j)` of `_xxx_ / x___x / _xxx_`. -/
def qTarget : List (List Bool) :=
  [[false, true, false], [true, false, true], [true, false, true],
   [true, false, true], [false, true, false]]

/-- An explicit model of the docstring example's constraint store. -/
def sigEx : String → Int := fun s =>
  ((([("h00", 1), ("h10", 0), ("h11", 4), ("h20", 1),
      ("v00", 1), ("v10", 0), ("v11", 2), ("v20", 0), ("v21", 2),
      ("v30", 0), ("v31", 2), ("v40", 1)] : List (String × Int)).lookup s).getD 0)

/-- The docstring answer as a field assignment (cell `j * 5 + i`). -/
def fEx : Int → Bool := fun k => ([1, 2, 3, 5, 9, 11, 12, 13] : List Int).contains k

lemma docExample_model : solveSat horDoc verDoc sigEx fEx :=
  solveSatB_iff.mp (by decide)

/-- All boolean lists of a given length. -/
def allBoolLists : Nat → List (List Bool)
  | 0 => [[]]
  | n + 1 => (allBoolLists n).map (fun l => false :: l) ++
      (allBoolLists n).map (fun l => true :: l)

lemma mem_allBoolLists : ∀ (n : Nat) (l : List Bool),
    l ∈ allBoolLists n ↔ l.length = n := by
  intro n
  induction n with
  | zero => intro l; cases l <;> simp [allBoolLists]
  | succ n ih =>
    intro l
    cases l with
    | nil => simp [allBoolLists, ih]
    | cons b t => cases b <;> simp [allBoolLists, ih]

/-- Finite check: the docstring example's hints determine the grid uniquely
(columns listed left to right, rows checked top to bottom). -/
lemma colUniqueAux : ∀ c0 ∈ allBoolLists 3, runLengths c0 = [1] →
    ∀ c1 ∈ allBoolLists 3, runLengths c1 = [1, 1] →
    ∀ c2 ∈ allBoolLists 3, runLengths c2 = [1, 1] →
    ∀ c3 ∈ allBoolLists 3, runLengths c3 = [1, 1] →
    ∀ c4 ∈ allBoolLists 3, runLengths c4 = [1] →
    runLengths [c0.getD 0 false, c1.getD 0 false, c2.getD 0 false,
      c3.getD 0 false, c4.getD 0 false] = [3] →
    runLengths [c0.getD 1 false, c1.getD 1 false, c2.getD 1 false,
      c3.getD 1 false, c4.getD 1 false] = [1, 1] →
    runLengths [c0.getD 2 false, c1.getD 2 false, c2.getD 2 false,
      c3.getD 2 false, c4.getD 2 false] = [3] →
    c0 = [false, true, false] ∧ c1 = [true, false, true] ∧ c2 = [true, false, true] ∧
      c3 = [true, false, true] ∧ c4 = [false, true, false] := by decide

/-- Any model of the docstring example's constraints extracts to `qTarget`. -/
lemma docExample_unique {σ : String → Int} {f : Int → Bool}
    (hsat : solveSat horDoc verDoc σ f) : answerGrid f 5 3 = qTarget := by
  obtain ⟨hH, hV⟩ := hsat
  -- rows
  have hr0 := hH 0 (by norm_num [horDoc])
  rw [show horDoc.getD 0 [] = [3] from rfl] at hr0
  unfold addColumnSat addColumnSatV at hr0
  rw [if_neg (show ¬(([3] : List Int) = []) from by decide)] at hr0
  have runs0 := line_runs (show ([3] : List Int) ≠ [] from by decide) (by decide) hr0
  norm_num [lineRender, List.range_succ, verDoc] at runs0
  have hr1 := hH 1 (by norm_num [horDoc])
  rw [show horDoc.getD 1 [] = [1, 1] from rfl] at hr1
  unfold addColumnSat addColumnSatV at hr1
  rw [if_neg (show ¬(([1, 1] : List Int) = []) from by decide)] at hr1
  have runs1 := line_runs (show ([1, 1] : List Int) ≠ [] from by decide) (by decide) hr1
  norm_num [lineRender, List.range_succ, verDoc] at runs1
  have hr2 := hH 2 (by norm_num [horDoc])
  rw [show horDoc.getD 2 [] = [3] from rfl] at hr2
  unfold addColumnSat addColumnSatV at hr2
  rw [if_neg (show ¬(([3] : List Int) = []) from by decide)] at hr2
  have runs2 := line_runs (show ([3] : List Int) ≠ [] from by decide) (by decide) hr2
  norm_num [lineRender, List.range_succ, verDoc] at runs2
  -- columns
  have hv0 := hV 0 (by norm_num [verDoc])
  rw [show verDoc.getD 0 [] = [1] from rfl] at hv0
  unfold addColumnSat addColumnSatV at hv0
  rw [if_neg (show ¬(([1] : List Int) = []) from by decide)] at hv0
  have cols0 := line_runs (show ([1] : List Int) ≠ [] from by decide) (by decide) hv0
  norm_num [lineRender, List.range_succ, horDoc, verDoc] at cols0
  have hv1 := hV 1 (by norm_num [verDoc])
  rw [show verDoc.getD 1 [] = [1, 1] from rfl] at hv1
  unfold addColumnSat addColumnSatV at hv1
  rw [if_neg (show ¬(([1, 1] : List Int) = []) from by decide)] at hv1
  have cols1 := line_runs (show ([1, 1] : List Int) ≠ [] from by decide) (by decide) hv1
  norm_num [lineRender, List.range_succ, horDoc, verDoc] at cols1
  have hv2 := hV 2 (by norm_num [verDoc])
  rw [show verDoc.getD 2 [] = [1, 1] from rfl] at hv2
  unfold addColumnSat addColumnSatV at hv2
  rw [if_neg (show ¬(([1, 1] : List Int) = []) from by decide)] at hv2
  have cols2 := line_runs (show ([1, 1] : List Int) ≠ [] from by decide) (by decide) hv2
  norm_num [lineRender, List.range_succ, horDoc, verDoc] at cols2
  have hv3 := hV 3 (by norm_num [verDoc])
  rw [show verDoc.getD 3 [] = [1, 1] from rfl] at hv3
  unfold addColumnSat addColumnSatV at hv3
  rw [if_neg (show ¬(([1, 1] : List Int) = []) from by decide)] at hv3
  have cols3 := line_runs (show ([1, 1] : List Int) ≠ [] from by decide) (by decide) hv3
  norm_num [lineRender, List.range_succ, horDoc, verDoc] at cols3
  have hv4 := hV 4 (by norm_num [verDoc])
  rw [show verDoc.getD 4 [] = [1] from rfl] at hv4
  unfold addColumnSat addColumnSatV at hv4
  rw [if_neg (show ¬(([1] : List Int) = []) from by decide)] at hv4
  have cols4 := line_runs (show ([1] : List Int) ≠ [] from by decide) (by decide) hv4
  norm_num [lineRender, List.range_succ, horDoc, verDoc] at cols4
  -- the finite search pins the grid down
  have hu := colUniqueAux
    [f 0, f 5, f 10] ((mem_allBoolLists 3 _).mpr rfl) cols0
    [f 1, f 6, f 11] ((mem_allBoolLists 3 _).mpr rfl) cols1
    [f 2, f 7, f 12] ((mem_allBoolLists 3 _).mpr rfl) cols2
    [f 3, f 8, f 13] ((mem_allBoolLists 3 _).mpr rfl) cols3
    [f 4, f 9, f 14] ((mem_allBoolLists 3 _).mpr rfl) cols4
    runs0 runs1 runs2
  obtain ⟨e0, e1, e2, e3, e4⟩ := hu
  have hexp : answerGrid f 5 3 =
      [[f 0, f 5, f 10], [f 1, f 6, f 11], [f 2, f 7, f 12],
       [f 3, f 8, f 13], [f 4, f 9, f 14]] := by
    norm_num [answerGrid, List.range_succ]
  rw [hexp, e0, e1, e2, e3, e4]
  rfl

/-! ## Unsatisfiable instances -/

/-- The 1×1 puzzle whose row demands a fill and whose column demands
emptiness has no model. -/
lemma one_one_unsat : ∀ (σ : String → Int) (f : Int → Bool),
    ¬ solveSat [[1]] [[]] σ f := by
  intro σ f hsat
  obtain ⟨hH, hV⟩ := hsat
  have h0 := hH 0 (by norm_num)
  rw [show ([[1]] : List (List Int)).getD 0 [] = [1] from rfl] at h0
  unfold addColumnSat addColumnSatV at h0
  rw [if_neg (show ¬(([1] : List Int) = []) from by decide)] at h0
  obtain ⟨c1, -, c3, c4, -⟩ := h0
  have hfill := c4 0 (by norm_num) 0 (by norm_num)
  have c3' : varFun σ ("h" ++ toString 0) 0 + 1 ≤ 1 := c3
  have hv := hV 0 (by norm_num)
  rw [show ([[]] : List (List Int)).getD 0 [] = [] from rfl] at hv
  unfold addColumnSat addColumnSatV at hv
  rw [if_pos rfl] at hv
  have hempty := hv 0 (by norm_num)
  norm_num at hempty hfill
  have hz : varFun σ ("h" ++ toString 0) 0 = 0 := by omega
  rw [hz] at hfill
  rw [hfill] at hempty
  exact Bool.noConfusion hempty

/-- Row hints derived from a 21×12 grid: row 1 holds eleven length-1 runs
(cells at the even columns), row 11 is entirely filled, all other rows are
empty. -/
def hor21 : List (List Int) :=
  [[], [1, 1, 1, 1, 1, 1, 1, 1, 1, 1, 1], [], [], [], [], [], [], [], [], [], [21]]

/-- Column hints of the same grid: even columns `[1, 1]`, odd columns `[1]`. -/
def ver21 : List (List Int) :=
  [[1, 1], [1], [1, 1], [1], [1, 1], [1], [1, 1], [1], [1, 1], [1], [1, 1],
   [1], [1, 1], [1], [1, 1], [1], [1, 1], [1], [1, 1], [1], [1, 1]]

/-- The constraint store of the 21×12 puzzle is unsatisfiable: the placement
variable of row 1's hint 10 and the placement variable of row 11's hint 0 are
both the z3 constant named `h110`, and the ordering constraints force that
single variable to be `20` and `0` at once. -/
lemma collision_unsat : ∀ (σ : String → Int) (f : Int → Bool),
    ¬ solveSat hor21 ver21 σ f := by
  intro σ f hsat
  obtain ⟨hH, -⟩ := hsat
  have h1 := hH 1 (by norm_num [hor21])
  rw [show hor21.getD 1 [] = [1, 1, 1, 1, 1, 1, 1, 1, 1, 1, 1] from rfl] at h1
  unfold addColumnSat addColumnSatV at h1
  rw [if_neg (show ¬(([1, 1, 1, 1, 1, 1, 1, 1, 1, 1, 1] : List Int) = [])
    from by decide)] at h1
  have h11 := hH 11 (by norm_num [hor21])
  rw [show hor21.getD 11 [] = [21] from rfl] at h11
  unfold addColumnSat addColumnSatV at h11
  rw [if_neg (show ¬(([21] : List Int) = []) from by decide)] at h11
  obtain ⟨a1, a2, -, -⟩ := h1
  obtain ⟨b1, -, b3, -⟩ := h11
  have a1' : (0 : Int) ≤ σ (("h" ++ toString 1) ++ toString 0) := a1
  have g0 : σ (("h" ++ toString 1) ++ toString 0) + 1 <
      σ (("h" ++ toString 1) ++ toString 1) := a2 0 (by norm_num)
  have g1 : σ (("h" ++ toString 1) ++ toString 1) + 1 <
      σ (("h" ++ toString 1) ++ toString 2) := a2 1 (by norm_num)
  have g2 : σ (("h" ++ toString 1) ++ toString 2) + 1 <
      σ (("h" ++ toString 1) ++ toString 3) := a2 2 (by norm_num)
  have g3 : σ (("h" ++ toString 1) ++ toString 3) + 1 <
      σ (("h" ++ toString 1) ++ toString 4) := a2 3 (by norm_num)
  have g4 : σ (("h" ++ toString 1) ++ toString 4) + 1 <
      σ (("h" ++ toString 1) ++ toString 5) := a2 4 (by norm_num)
  have g5 : σ (("h" ++ toString 1) ++ toString 5) + 1 <
      σ (("h" ++ toString 1) ++ toString 6) := a2 5 (by norm_num)
  have g6 : σ (("h" ++ toString 1) ++ toString 6) + 1 <
      σ (("h" ++ toString 1) ++ toString 7) := a2 6 (by norm_num)
  have g7 : σ (("h" ++ toString 1) ++ toString 7) + 1 <
      σ (("h" ++ toString 1) ++ toString 8) := a2 7 (by norm_num)
  have g8 : σ (("h" ++ toString 1) ++ toString 8) + 1 <
      σ (("h" ++ toString 1) ++ toString 9) := a2 8 (by norm_num)
  have g9 : σ (("h" ++ toString 1) ++ toString 9) + 1 <
      σ (("h" ++ toString 1) ++ toString 10) := a2 9 (by norm_num)
  have b3' : σ (("h" ++ toString 11) ++ toString 0) + 21 ≤ (21 : Int) := b3
  have hname : (("h" ++ toString 1) ++ toString 10 : String) =
      ("h" ++ toString 11) ++ toString 0 := by decide
  rw [hname] at g9
  omega

lemma getD_map_range {α : Type} (g : Nat → α) (d : α) {n i : Nat} (h : i < n) :
    ((List.range n).map g).getD i d = g i := by
  rw [List.getD_eq_getElem _ _ (by simpa using h)]
  simp

/-! ## Claims -/

/-- C1: Soundness of the per-line encoding: for every non-empty hint line of
positive integers encoded over a line of length `size` by `_add_column`, any
assignment satisfying the emitted constraints renders the line as exactly
`numbers.length` contiguous runs whose lengths match the hints in order with
at least one empty cell between runs and all other cells empty
(`runLengths` equality), so exactly `sum numbers` cells are filled; and the
run start offsets satisfy `0 ≤ v 0`, `v i + h i < v (i+1)` and
`v last + h last ≤ size`. -/
theorem encode_line_sound {numbers : List Int} {skip base : Int} {size : Nat}
    {V : Nat → Int} {f : Int → Bool} (hne : numbers ≠ [])
    (hpos : ∀ x ∈ numbers, 0 < x)
    (hsat : addColumnSatV numbers skip base size V f) :
    runLengths (lineRender f skip base size) = numbers.map Int.toNat ∧
    (lineRender f skip base size).count true = (numbers.map Int.toNat).sum ∧
    0 ≤ V 0 ∧
    (∀ i : Nat, i < numbers.length - 1 → V i + numbers.getD i 0 < V (i + 1)) ∧
    V (numbers.length - 1) + numbers.getD (numbers.length - 1) 0 ≤ (size : Int) := by
  unfold addColumnSatV at hsat
  rw [if_neg hne] at hsat
  have h1 := line_runs hne hpos hsat
  refine ⟨h1, ?_, hsat.1, hsat.2.1, hsat.2.2.1⟩
  rw [← runLengths_sum, h1]

theorem encode_line_sound_witness :
    runLengths (lineRender (fun k => ([0, 1, 3] : List Int).contains k) 1 0 5) =
      [2, 1] ∧
    (lineRender (fun k => ([0, 1, 3] : List Int).contains k) 1 0 5).count true = 3 := by
  have h := @encode_line_sound [2, 1] 1 0 5
    (fun i => if i = 0 then 0 else 3)
    (fun k => ([0, 1, 3] : List Int).contains k)
    (by decide) (by decide) (addColumnSatB_iff.mp (by decide))
  exact ⟨h.1, h.2.1⟩

/-- C2 (code bug): for the 21×12 grid whose row 1 is eleven single filled
cells at the even columns and whose row 11 is entirely filled, the hints
derived from the grid produce an UNSATISFIABLE constraint store, because
`_add_column` names row 1's placement variable 10 and row 11's placement
variable 0 both `h110` — the same z3 constant — and the ordering constraints
force it to be `20` and `0` at once.  Hence `solve()` returns the no-solution
marker instead of a grid whose derived hints match, refuting the round-trip
property on this input. -/
theorem collision_roundtrip_unsat :
    ¬ ∃ (σ : String → Int) (f : Int → Bool), solveSat hor21 ver21 σ f := by
  rintro ⟨σ, f, h⟩
  exact collision_unsat σ f h

/-- C3: `_solve` encodes every horizontal hint line `j` with line length
`width = len(vertical_hints)`, base `j * width`, skip `1`, and every
vertical hint line `i` with line length `height = len(horizontal_hints)`,
base `i`, skip `width`, all against the shared field; position `i` of
horizontal line `j` and position `j` of vertical line `i` address the same
cell `j * width + i`, so the two renders agree on every shared cell. -/
theorem solve_orchestration (hor ver : List (List Int)) (σ : String → Int)
    (f : Int → Bool) :
    (solveSat hor ver σ f ↔
      ((∀ j : Nat, j < hor.length →
        addColumnSat (hor.getD j []) 1 ((j : Int) * ver.length) ver.length
          ("h" ++ toString j) σ f) ∧
       (∀ i : Nat, i < ver.length →
        addColumnSat (ver.getD i []) (ver.length : Int) (i : Int) hor.length
          ("v" ++ toString i) σ f))) ∧
    (∀ i j : Nat, ((j : Int) * ver.length) + 1 * (i : Int) =
      (i : Int) + (ver.length : Int) * (j : Int)) ∧
    (∀ i j : Nat, i < ver.length → j < hor.length →
      (lineRender f 1 ((j : Int) * ver.length) ver.length).getD i false =
      (lineRender f (ver.length : Int) (i : Int) hor.length).getD j false) := by
  refine ⟨Iff.rfl, fun i j => by ring, ?_⟩
  intro i j hi hj
  unfold lineRender
  rw [getD_map_range _ _ hi, getD_map_range _ _ hj]
  congr 1
  ring

theorem solve_orchestration_witness :
    (lineRender (fun _ => true) 1 ((0 : Int) * ([[1]] : List (List Int)).length)
      ([[1]] : List (List Int)).length).getD 0 false =
    (lineRender (fun _ => true) (([[1]] : List (List Int)).length : Int)
      ((0 : Nat) : Int) ([[1]] : List (List Int)).length).getD 0 false :=
  (solve_orchestration [[1]] [[1]] (fun _ => 0) (fun _ => true)).2.2 0 0
    (by decide) (by decide)

/-- C4: the empty-hints branch of `_add_column` asserts exactly that every
one of the `size` cells of the line is false — it is independent of the
placement-variable assignment (no placement variables are introduced) and
adds no other constraint — and any satisfying assignment renders the line
entirely empty. -/
theorem empty_hints_all_false (skip base : Int) (size : Nat) (f : Int → Bool) :
    (∀ V W : Nat → Int, addColumnSatV [] skip base size V f ↔
      addColumnSatV [] skip base size W f) ∧
    (∀ V : Nat → Int, addColumnSatV [] skip base size V f ↔
      ∀ i : Nat, i < size → f (base + skip * (i : Int)) = false) ∧
    (∀ V : Nat → Int, addColumnSatV [] skip base size V f →
      lineRender f skip base size = List.replicate size false) := by
  have hiff : ∀ V : Nat → Int, addColumnSatV [] skip base size V f ↔
      ∀ i : Nat, i < size → f (base + skip * (i : Int)) = false := by
    intro V
    unfold addColumnSatV
    rw [if_pos rfl]
  refine ⟨fun V W => (hiff V).trans (hiff W).symm, hiff, ?_⟩
  intro V h
  rw [hiff] at h
  apply List.eq_replicate_iff.mpr
  refine ⟨by simp [lineRender], ?_⟩
  intro b hb
  simp only [lineRender, List.mem_map, List.mem_range] at hb
  obtain ⟨i, hi, rfl⟩ := hb
  exact h i hi

theorem empty_hints_all_false_witness :
    addColumnSatV [] 1 0 2 (fun _ => 0) (fun _ => false) ∧
    lineRender (fun _ => false) 1 0 2 = List.replicate 2 false := by
  have h := empty_hints_all_false 1 0 2 (fun _ => false)
  have hs : addColumnSatV [] 1 0 2 (fun _ => 0) (fun _ => false) :=
    (h.2.1 (fun _ => 0)).mpr (fun i hi => rfl)
  exact ⟨hs, h.2.2 (fun _ => 0) hs⟩

/-- C5 counterexample: with the hints exactly as the spec's scenario states
them (rows `[[3],[1,1],[1]]`, columns `[[1,1],[1,1],[1,1],[],[1]]`), no model
of the emitted constraint store extracts to the claimed `_xxx_ / x___x /
_xxx_` grid: row 2 of that grid is one run of length 3, but the row-2 hint
is `[1]`.  So solving cannot yield the claimed rendering. -/
theorem concrete_scenario_claim_false :
    ¬ ∃ (σ : String → Int) (f : Int → Bool),
      solveSat horClaim verClaim σ f ∧ answerGrid f 5 3 = qTarget := by
  rintro ⟨σ, f, hsat, hgrid⟩
  obtain ⟨hH, -⟩ := hsat
  have hr2 := hH 2 (by norm_num [horClaim])
  rw [show horClaim.getD 2 [] = [1] from rfl] at hr2
  unfold addColumnSat addColumnSatV at hr2
  rw [if_neg (show ¬(([1] : List Int) = []) from by decide)] at hr2
  have runs2 := line_runs (show ([1] : List Int) ≠ [] from by decide) (by decide) hr2
  norm_num [lineRender, List.range_succ, verClaim] at runs2
  have hexp : answerGrid f 5 3 =
      [[f 0, f 5, f 10], [f 1, f 6, f 11], [f 2, f 7, f 12],
       [f 3, f 8, f 13], [f 4, f 9, f 14]] := by
    norm_num [answerGrid, List.range_succ]
  rw [hexp] at hgrid
  simp only [qTarget, List.cons.injEq, and_true] at hgrid
  obtain ⟨⟨-, -, h10⟩, ⟨-, -, h11⟩, ⟨-, -, h12⟩, ⟨-, -, h13⟩, ⟨-, -, h14⟩⟩ := hgrid
  rw [h10, h11, h12, h13, h14] at runs2
  exact absurd runs2 (by decide)

/-- C5 amended: with the hints the module docstring actually uses (rows
`[[3],[1,1],[3]]`, columns `[[1],[1,1],[1,1],[1,1],[1]]`), solving yields the
grid rendered as `_xxx_ / x___x / _xxx_`. -/
theorem concrete_scenario_docstring
    (res : Option ((String → Int) × (Int → Bool)))
    (hOK : SolverOK horDoc verDoc res) :
    solveResult horDoc verDoc res = some qTarget ∧
    printAnswer (solveResult horDoc verDoc res) =
      some "_xxx_\nx___x\n_xxx_\n" := by
  cases res with
  | none => exact absurd docExample_model (hOK.2 rfl sigEx fEx)
  | some p =>
    obtain ⟨σ, f⟩ := p
    have hgrid := docExample_unique (hOK.1 σ f rfl)
    constructor
    · show some (answerGrid f verDoc.length horDoc.length) = some qTarget
      rw [show verDoc.length = 5 from rfl, show horDoc.length = 3 from rfl, hgrid]
    · show printAnswer (some (answerGrid f verDoc.length horDoc.length)) = _
      rw [show verDoc.length = 5 from rfl, show horDoc.length = 3 from rfl, hgrid]
      rfl

theorem concrete_scenario_docstring_witness :
    solveResult horDoc verDoc (some (sigEx, fEx)) = some qTarget ∧
    printAnswer (solveResult horDoc verDoc (some (sigEx, fEx))) =
      some "_xxx_\nx___x\n_xxx_\n" :=
  concrete_scenario_docstring (some (sigEx, fEx))
    ⟨fun σ f h => by injection h with h2; cases h2; exact docExample_model,
     fun h => Option.noConfusion h⟩

/-- C6: whenever the combined constraints admit no satisfying assignment,
`solve()` returns the no-solution marker `None` and `print_answer` writes
exactly the single line `No solutions!`. -/
theorem unsat_prints_no_solutions (hor ver : List (List Int))
    (res : Option ((String → Int) × (Int → Bool)))
    (hOK : SolverOK hor ver res)
    (hUnsat : ∀ σ f, ¬ solveSat hor ver σ f) :
    solveResult hor ver res = none ∧
    printAnswer (solveResult hor ver res) = some "No solutions!\n" := by
  cases res with
  | none => exact ⟨rfl, rfl⟩
  | some p => exact absurd (hOK.1 p.1 p.2 rfl) (hUnsat p.1 p.2)

theorem unsat_prints_no_solutions_witness :
    solveResult [[1]] [[]] none = none ∧
    printAnswer (solveResult [[1]] [[]] none) = some "No solutions!\n" :=
  unsat_prints_no_solutions [[1]] [[]] none
    ⟨fun _ _ h => Option.noConfusion h, fun _ => one_one_unsat⟩
    one_one_unsat

/-- C7: on a successful solve with `width ≥ 1`, `print_answer` writes exactly
`height` lines of exactly `width` characters, character `i` of line `j`
being `x` when the solved cell `(i, j)` (field index `j * width + i`) is
filled and `_` otherwise, rows top to bottom. -/
theorem print_answer_format (f : Int → Bool) (w hgt : Nat) (hw : 1 ≤ w) :
    (answerLines (answerGrid f w hgt)).length = hgt ∧
    (∀ s ∈ answerLines (answerGrid f w hgt), s.data.length = w) ∧
    (∀ j : Nat, j < hgt → ∀ i : Nat, i < w →
      ((answerLines (answerGrid f w hgt)).getD j "").data.getD i ' ' =
        (if f ((j : Int) * w + i) then 'x' else '_')) ∧
    printAnswer (some (answerGrid f w hgt)) =
      some (renderAnswer (answerGrid f w hgt)) := by
  have hqlen : (answerGrid f w hgt).length = w := by simp [answerGrid]
  have hheadlen : (answerGrid f w hgt).headI.length = hgt := by
    obtain ⟨n, rfl⟩ : ∃ n, w = n + 1 := ⟨w - 1, by omega⟩
    simp [answerGrid, List.range_succ_eq_map]
  refine ⟨?_, ?_, ?_, ?_⟩
  · simp [answerLines, hheadlen]
  · intro s hs
    simp only [answerLines, List.mem_map, List.mem_range] at hs
    obtain ⟨j, hj, rfl⟩ := hs
    simpa using hqlen
  · intro j hj i hi
    unfold answerLines
    rw [getD_map_range _ _ (by rwa [hheadlen])]
    rw [show ∀ l : List Char, (String.mk l).data = l from fun l => rfl]
    rw [getD_map_range _ _ (by rwa [hqlen])]
    unfold answerGrid
    rw [getD_map_range _ _ hi, getD_map_range _ _ hj]
  · rcases hq : answerGrid f w hgt with - | ⟨c, cs⟩
    · exfalso
      have := congrArg List.length hq
      rw [hqlen] at this
      simp at this
      omega
    · rfl

theorem print_answer_format_witness :
    (answerLines (answerGrid (fun _ => false) 1 1)).length = 1 ∧
    printAnswer (some (answerGrid (fun _ => false) 1 1)) =
      some (renderAnswer (answerGrid (fun _ => false) 1 1)) := by
  have h := print_answer_format (fun _ => false) 1 1 (by decide)
  exact ⟨h.1, h.2.2.2⟩

/-- C8: `solve()` is idempotent: starting from a fresh instance, after the
first call the state is permanently `solved` with the cached answer, every
call (first or later) returns the same result, and `_solve` is invoked
exactly once in total no matter how many times `solve()` is called. -/
theorem solve_idempotent (compute : Option (List (List Bool))) :
    ∀ n : Nat, 1 ≤ n →
      (solveCalls compute n).1 = { solved := true, answer := compute } ∧
      (solveCalls compute n).2.1 = compute ∧
      (solveCalls compute n).2.2 = 1 := by
  intro n
  induction n with
  | zero => intro h; exact absurd h (by omega)
  | succ n ih =>
    intro _
    cases n with
    | zero => exact ⟨rfl, rfl, rfl⟩
    | succ m =>
      obtain ⟨h1, h2, h3⟩ := ih (by omega)
      unfold solveCalls
      simp only [h1, h3, solveCall]
      exact ⟨rfl, rfl, rfl⟩

theorem solve_idempotent_witness :
    (solveCalls (some [[true]]) 2).2.1 = some [[true]] ∧
    (solveCalls (some [[true]]) 2).2.2 = 1 := by
  have h := solve_idempotent (some [[true]]) 2 (by omega)
  exact ⟨h.2.1, h.2.2⟩

/-- C9: the constraints `_add_column` emits for the hint line `[0]` admit
exactly the same field assignments as those for the empty hint line `[]` —
all `size` cells false — even though the `[0]` branch introduces one
placement variable (the existential) while the `[]` branch introduces none. -/
theorem zero_hint_equiv_empty (skip base : Int) (size : Nat) (f : Int → Bool) :
    (∃ V : Nat → Int, addColumnSatV [0] skip base size V f) ↔
      addColumnSatV [] skip base size (fun _ => 0) f := by
  constructor
  · rintro ⟨V, hV⟩
    unfold addColumnSatV at hV
    rw [if_neg (show ¬(([0] : List Int) = []) from by decide)] at hV
    unfold addColumnSatV
    rw [if_pos rfl]
    intro i hi
    obtain ⟨c1, -, -, -, c5, -, c7⟩ := hV
    by_cases h : (i : Int) < V 0
    · rcases c5 (i : Int) with h1 | h1 | h1
      · omega
      · omega
      · exact h1
    · rcases c7 (i : Int) with h1 | h1 | h1
      · have h1' : (i : Int) < V 0 + 0 := h1
        omega
      · omega
      · exact h1
  · intro h
    unfold addColumnSatV at h
    rw [if_pos rfl] at h
    refine ⟨fun _ => 0, ?_⟩
    unfold addColumnSatV
    rw [if_neg (show ¬(([0] : List Int) = []) from by decide)]
    refine ⟨le_rfl, ?_, ?_, ?_, ?_, ?_, ?_⟩
    · intro i hi
      rw [show ([0] : List Int).length - 1 = 0 from rfl] at hi
      exact absurd hi (by omega)
    · show (0 : Int) + ([0] : List Int).getD (([0] : List Int).length - 1) 0 ≤
        (size : Int)
      norm_num
    · intro i hi k hk
      rw [show ([0] : List Int).length = 1 from rfl] at hi
      have hi0 : i = 0 := by omega
      rw [hi0] at hk
      rw [show (([0] : List Int).getD 0 0).toNat = 0 from rfl] at hk
      exact absurd hk (by omega)
    · intro fa
      by_cases hfa : fa < 0
      · exact Or.inl hfa
      · exact Or.inr (Or.inl (show (0 : Int) ≤ fa from by omega))
    · intro i hi
      rw [show ([0] : List Int).length - 1 = 0 from rfl] at hi
      exact absurd hi (by omega)
    · intro fa
      by_cases h1 : fa < (0 : Int) + ([0] : List Int).getD
          (([0] : List Int).length - 1) 0
      · exact Or.inl h1
      · by_cases h2 : (size : Int) ≤ fa
        · exact Or.inr (Or.inl h2)
        · refine Or.inr (Or.inr ?_)
          have h1' : ¬(fa < 0 + 0) := h1
          have hfa := h fa.toNat (by omega)
          rwa [show ((fa.toNat : Nat) : Int) = fa from by omega] at hfa

theorem zero_hint_equiv_empty_witness :
    ∃ V : Nat → Int, addColumnSatV [0] 1 0 3 V (fun _ => false) :=
  (zero_hint_equiv_empty 1 0 3 (fun _ => false)).mpr
    (addColumnSatB_iff.mp (by decide))

/-- C10: when `width = 0` (no vertical hint lists) and the puzzle is
satisfiable, `solve()` returns the empty grid `[]`, and `print_answer` then
fails on `len(q[0])` (modelled as `none`) instead of printing `height` empty
lines; on any non-empty grid `print_answer` terminates normally. -/
theorem zero_width_print_fails (hor : List (List Int))
    (res : Option ((String → Int) × (Int → Bool)))
    (hOK : SolverOK hor [] res)
    (hSat : ∃ σ f, solveSat hor [] σ f) :
    solveResult hor [] res = some [] ∧
    printAnswer (solveResult hor [] res) = none ∧
    (∀ (c : List Bool) (cs : List (List Bool)),
      (printAnswer (some (c :: cs))).isSome = true) := by
  have hres : ∃ p, res = some p := by
    cases res with
    | none =>
      obtain ⟨σ, f, h⟩ := hSat
      exact absurd h (hOK.2 rfl σ f)
    | some p => exact ⟨p, rfl⟩
  obtain ⟨p, rfl⟩ := hres
  exact ⟨rfl, rfl, fun c cs => rfl⟩

theorem zero_width_print_fails_witness :
    solveResult [[]] [] (some (fun _ => 0, fun _ => false)) = some [] ∧
    printAnswer (solveResult [[]] [] (some (fun _ => 0, fun _ => false))) =
      none := by
  have hsolve : ∀ (σ : String → Int) (f : Int → Bool), solveSat [[]] [] σ f := by
    intro σ f
    constructor
    · intro j hj
      rw [show ([[]] : List (List Int)).length = 1 from rfl] at hj
      have hj0 : j = 0 := by omega
      rw [hj0]
      rw [show ([[]] : List (List Int)).getD 0 [] = [] from rfl]
      unfold addColumnSat addColumnSatV
      rw [if_pos rfl]
      intro i hi
      rw [show ([] : List (List Int)).length = 0 from rfl] at hi
      exact absurd hi (by omega)
    · intro i hi
      rw [show ([] : List (List Int)).length = 0 from rfl] at hi
      exact absurd hi (by omega)
  have h := zero_width_print_fails [[]] (some (fun _ => 0, fun _ => false))
    ⟨fun σ f _ => hsolve σ f, fun hh => Option.noConfusion hh⟩
    ⟨fun _ => 0, fun _ => false, hsolve _ _⟩
  exact ⟨h.1, h.2.1⟩

end DrawLogicSolver
